import Mathlib

/-
Verification of the ranked server-entry repository and candidate iterator
(psiphon dataStore_alt.go / serverEntry.go), via a shallow embedding.

Modelling conventions:
- The BoltDB engine is embedded as a pure state: the serverEntries bucket is
  a key-sorted association list (bolt iterates keys in byte order), and the
  rank index is the deserialized list of ids stored under its singleton key.
- json.Marshal/json.Unmarshal of a ServerEntry written by this code round-trip;
  the bucket therefore stores ServerEntry values directly.
- Go functions returning (result, error) are embedded with Option/Except;
  mutations return the new state paired with the optional error.
- rand.Intn draws are passed in as an explicit draw function; a draw function
  is admissible when every drawn value is within rand.Intn's range.
- net.ParseIP (standard library, outside the sources) is a parameter
  `parseIP : String → Bool` of the operations that validate entries;
  goParseIPv4 below is the concrete instance used by witnesses.
- json.Unmarshal of an arbitrary payload (standard library) is a parameter
  `ju : List Nat → Option ServerEntry` of the decode functions.
-/

set_option maxRecDepth 100000

namespace PsiphonModel

/-- ServerEntry from serverEntry.go: one relay server record. Go ints are
embedded as Int, strings as String, []string as List String. -/
structure ServerEntry where
  IpAddress                     : String
  WebServerPort                 : String
  WebServerSecret               : String
  WebServerCertificate          : String
  SshPort                       : Int
  SshUsername                   : String
  SshPassword                   : String
  SshHostKey                    : String
  SshObfuscatedPort             : Int
  SshObfuscatedKey              : String
  Capabilities                  : List String
  Region                        : String
  MeekServerPort                : Int
  MeekCookieEncryptionPublicKey : String
  MeekObfuscatedKey             : String
  MeekFrontingHost              : String
  MeekFrontingDomain            : String
  MeekFrontingAddresses         : List String
  MeekFrontingAddressesRegex    : String
deriving DecidableEq, Repr

/-- Modelled from the spec: Contains (repo utility, not under src/) is list
membership: "an entry matches if its capability set contains that capability". -/
def Contains (list : List String) (target : String) : Bool :=
  list.contains target

/-- strings.TrimSuffix: drop the suffix when present, else return s unchanged. -/
def trimSuffix (s suf : String) : String :=
  if suf.data.isSuffixOf s.data then
    String.mk (s.data.take (s.data.length - suf.data.length))
  else s

/-- serverEntrySupportsProtocol from dataStore_alt.go: strip the "-OSSH"
suffix from the protocol name and test capability membership. -/
def serverEntrySupportsProtocol (serverEntry : ServerEntry) (protocol : String) : Bool :=
  Contains serverEntry.Capabilities (trimSuffix protocol "-OSSH")

/-- MakeCompatibleServerEntry from dataStore_alt.go: when the entry has no
MeekFrontingAddresses but has a MeekFrontingDomain, append the domain to the
(empty) address list; otherwise return the entry unchanged. -/
def MakeCompatibleServerEntry (serverEntry : ServerEntry) : ServerEntry :=
  if serverEntry.MeekFrontingAddresses.length == 0 && serverEntry.MeekFrontingDomain != "" then
    { serverEntry with
        MeekFrontingAddresses :=
          serverEntry.MeekFrontingAddresses ++ [serverEntry.MeekFrontingDomain] }
  else
    serverEntry

/-- encoding/hex fromHexChar: value of one hex digit, none for other bytes. -/
def fromHexChar (c : Char) : Option Nat :=
  if '0' ≤ c ∧ c ≤ '9' then some (c.toNat - 48)
  else if 'a' ≤ c ∧ c ≤ 'f' then some (c.toNat - 97 + 10)
  else if 'A' ≤ c ∧ c ≤ 'F' then some (c.toNat - 65 + 10)
  else none

/-- encoding/hex DecodeString on the character list: bytes come from pairs of
hex digits; odd length or a non-hex character is an error (none). -/
def hexDecodeBytes : List Char → Option (List Nat)
  | [] => some []
  | [_] => none
  | a :: b :: rest =>
    match fromHexChar a, fromHexChar b, hexDecodeBytes rest with
    | some av, some bv, some tail => some ((av * 16 + bv) :: tail)
    | _, _, _ => none

/-- hex.DecodeString applied to a Go string (its bytes; ASCII in all uses). -/
def hexDecodeString (s : String) : Option (List Nat) :=
  hexDecodeBytes s.data

/-- Split a byte list at the first occurrence of sep: the part before and the
part after, or none when sep does not occur. -/
def splitFirst : List Nat → Nat → Option (List Nat × List Nat)
  | [], _ => none
  | x :: xs, sep =>
    if x = sep then some ([], xs)
    else
      match splitFirst xs sep with
      | none => none
      | some (a, b) => some (x :: a, b)

/-- bytes.SplitN with a single-byte separator: at most n parts, the last part
holding the unsplit remainder (n = 0 gives no parts, as in Go). -/
def goSplitN : List Nat → Nat → Nat → List (List Nat)
  | _, _, 0 => []
  | s, _, 1 => [s]
  | s, sep, n + 2 =>
    match splitFirst s sep with
    | none => [s]
    | some (a, b) => a :: goSplitN b sep (n + 1)

/-- DecodeServerEntry from serverEntry.go: hex-decode, split on the first four
spaces (byte 32) into at most five fields, require exactly five, and JSON
unmarshal the fifth. json.Unmarshal is the parameter ju (stdlib). -/
def DecodeServerEntry (ju : List Nat → Option ServerEntry) (encodedServerEntry : String) :
    Option ServerEntry :=
  match hexDecodeString encodedServerEntry with
  | none => none
  | some hexDecoded =>
    let fields := goSplitN hexDecoded 32 5
    if fields.length ≠ 5 then none
    else ju (fields.getD 4 [])

/-- Go net dtoi starting at the head of the character list: consume decimal
digits accumulating from n, failing on overflow past 0xFFFFFF; returns the
value and the unconsumed rest. Fails when the first character is not a digit. -/
def dtoiLoop (n : Nat) : List Char → Option (Nat × List Char)
  | [] => some (n, [])
  | c :: cs =>
    if '0' ≤ c ∧ c ≤ '9' then
      let n' := n * 10 + (c.toNat - 48)
      if n' ≥ 0xFFFFFF then none else dtoiLoop n' cs
    else some (n, c :: cs)

/-- Go net dtoi: at least one digit required. -/
def dtoi : List Char → Option (Nat × List Char)
  | [] => none
  | c :: cs =>
    if '0' ≤ c ∧ c ≤ '9' then dtoiLoop 0 (c :: cs)
    else none

/-- Modelled from the spec: net.ParseIP (stdlib, not under src/) restricted to
IPv4 dotted-quad literals, following Go's parseIPv4: four decimal octets each
at most 255 separated by dots, consuming the whole string; leading zeros are
accepted as Go's dtoi accepts them. k counts the octets still to parse. -/
def ipv4Octets : Nat → List Char → Bool
  | 0, cs => cs.isEmpty
  | k + 1, cs =>
    match dtoi cs with
    | none => false
    | some (n, rest) =>
      if n > 255 then false
      else
        match k, rest with
        | 0, [] => true
        | 0, _ :: _ => false
        | k' + 1, '.' :: rest' => ipv4Octets (k' + 1) rest'
        | _ + 1, _ => false

/-- Modelled from the spec: the IP-literal check used by witnesses; theorems
quantify over the parseIP predicate instead. -/
def goParseIPv4 (s : String) : Bool :=
  ipv4Octets 4 s.data

/-- ValidateServerEntry from serverEntry.go: error (some message) exactly when
IpAddress does not parse as an IP literal according to parseIP. -/
def ValidateServerEntry (parseIP : String → Bool) (serverEntry : ServerEntry) :
    Option String :=
  if parseIP serverEntry.IpAddress then none
  else some ("server entry has invalid IpAddress: " ++ serverEntry.IpAddress)

/-- Loop of DecodeAndValidateServerEntryList from serverEntry.go over the
newline-split lines: skip empty lines, fail the whole call on a decode error,
silently drop entries failing validation, keep the rest in order. -/
def decodeAndValidateLoop (ju : List Nat → Option ServerEntry) (parseIP : String → Bool) :
    List String → Option (List ServerEntry)
  | [] => some []
  | line :: rest =>
    if line.data.isEmpty then decodeAndValidateLoop ju parseIP rest
    else
      match DecodeServerEntry ju line with
      | none => none
      | some serverEntry =>
        match decodeAndValidateLoop ju parseIP rest with
        | none => none
        | some entries =>
          some (if (ValidateServerEntry parseIP serverEntry).isNone
                then serverEntry :: entries else entries)

/-- Full split of a character list on one separator character; an empty list
gives one empty part, matching Go's strings.Split with a one-byte separator. -/
def splitChar : List Char → Char → List (List Char)
  | [], _ => [[]]
  | c :: cs, sep =>
    match splitChar cs sep with
    | [] => [[]]
    | h :: t => if c = sep then [] :: h :: t else (c :: h) :: t

/-- strings.Split on newline, over Go strings. -/
def goSplitLines (s : String) : List String :=
  (splitChar s.data '\n').map String.mk

/-- DecodeAndValidateServerEntryList from serverEntry.go: split the input on
newlines and run the decode/validate loop. -/
def DecodeAndValidateServerEntryList (ju : List Nat → Option ServerEntry)
    (parseIP : String → Bool) (encodedServerEntryList : String) :
    Option (List ServerEntry) :=
  decodeAndValidateLoop ju parseIP (goSplitLines encodedServerEntryList)

/-- Byte order on keys (bolt compares keys bytewise; keys here are ASCII IP
strings, for which character order equals byte order). -/
def charListLt : List Char → List Char → Bool
  | [], [] => false
  | [], _ :: _ => true
  | _ :: _, [] => false
  | a :: as, b :: bs =>
    if a < b then true else if b < a then false else charListLt as bs

/-- The persistent state touched by the claims: the serverEntries bucket as a
key-sorted association list (bolt iterates keys in byte order) and the rank
index list stored under the rankedServerEntries singleton key. -/
structure DataStoreState where
  serverEntries : List (String × ServerEntry)
  rankedServerEntries : List String
deriving DecidableEq, Repr

/-- The freshly initialized data store: empty buckets. -/
def emptyDataStore : DataStoreState := ⟨[], []⟩

/-- bolt Bucket.Get on the serverEntries bucket. -/
def lookupEntry : List (String × ServerEntry) → String → Option ServerEntry
  | [], _ => none
  | (k, v) :: rest, key => if key = k then some v else lookupEntry rest key

/-- bolt Bucket.Put on the serverEntries bucket: replace an existing key or
insert in key order. -/
def putEntry : List (String × ServerEntry) → String → ServerEntry →
    List (String × ServerEntry)
  | [], key, v => [(key, v)]
  | (k, v') :: rest, key, v =>
    if key = k then (key, v) :: rest
    else if charListLt key.data k.data then (key, v) :: (k, v') :: rest
    else (k, v') :: putEntry rest key v

/-- rankedServerEntryCount from dataStore_alt.go. -/
def rankedServerEntryCount : Nat := 100

/-- insertRankedServerEntry from dataStore_alt.go, on the deserialized rank
list: append when position is past the end (no cap on that path); otherwise
shift right from position, truncating at end = (len+1 > cap ? cap : len). -/
def insertRankedServerEntry (rankedServerEntries : List String)
    (serverEntryId : String) (position : Nat) : List String :=
  if position ≥ rankedServerEntries.length then
    rankedServerEntries ++ [serverEntryId]
  else
    let e := if rankedServerEntries.length + 1 > rankedServerEntryCount
             then rankedServerEntryCount else rankedServerEntries.length
    rankedServerEntries.take position ++ [serverEntryId] ++
      (rankedServerEntries.drop position).take (e - position)

/-- StoreServerEntry from dataStore_alt.go: validate (error, state untouched,
when the IP literal does not parse — validation runs before the write
transaction); when the entry exists and replaceIfExists is false, a no-op
with no error; otherwise write the record and insert its id at rank 1.
Result is the new state paired with the optional returned error. -/
def StoreServerEntry (parseIP : String → Bool) (serverEntry : ServerEntry)
    (replaceIfExists : Bool) (st : DataStoreState) : DataStoreState × Option String :=
  if (ValidateServerEntry parseIP serverEntry).isSome then
    (st, some "invalid server entry")
  else
    let serverEntryExists := (lookupEntry st.serverEntries serverEntry.IpAddress).isSome
    if serverEntryExists && !replaceIfExists then
      (st, none)
    else
      ({ serverEntries := putEntry st.serverEntries serverEntry.IpAddress serverEntry,
         rankedServerEntries :=
           insertRankedServerEntry st.rankedServerEntries serverEntry.IpAddress 1 },
       none)

/-- PromoteServerEntry from dataStore_alt.go: insert the id at rank 0. -/
def PromoteServerEntry (ipAddress : String) (st : DataStoreState) :
    DataStoreState × Option String :=
  ({ st with rankedServerEntries :=
       insertRankedServerEntry st.rankedServerEntries ipAddress 0 }, none)

/-- A sequence of independent StoreServerEntry transactions, each entry stored
with replaceIfExists = true (error returns leave the state unchanged, so the
fold continues from the returned state exactly as sequential calls would). -/
def storeSequentially (parseIP : String → Bool) (entries : List ServerEntry)
    (st : DataStoreState) : DataStoreState :=
  entries.foldl (fun s entry => (StoreServerEntry parseIP entry true s).1) st

/-- The candidate id list built inside Reset's View transaction: the rank
index snapshot, then every bucket key not already in it, in descending key
order (cursor.Last then cursor.Prev). -/
def ResetCandidates (st : DataStoreState) : List String :=
  st.rankedServerEntries ++
    ((st.serverEntries.map Prod.fst).reverse.filter
      (fun key => !st.rankedServerEntries.contains key))

/-- Swap two positions of a list (both in range in every use, as in the Go
loop where both indices are below the list length). -/
def swapIds (l : List String) (i j : Nat) : List String :=
  match l.get? i, l.get? j with
  | some a, some b => (l.set i b).set j a
  | _, _ => l

/-- The indices visited by Reset's shuffle loop: i from len-1 down to
shuffleHeadLength (the Go loop condition is i > shuffleHeadLength-1).
Faithful for shuffleHeadLength ≥ 1; at 0 the Go loop reaches i = 0 and
rand.Intn(0) panics, a case no claim exercises. -/
def shuffleIndices (len shuffleHeadLength : Nat) : List Nat :=
  ((List.range len).drop shuffleHeadLength).reverse

/-- Reset's tail shuffle from dataStore_alt.go: at each visited i, swap
position i with position draws i, where draws i models rand.Intn(i), so an
admissible draw function has draws i < i. -/
def resetShuffle (draws : Nat → Nat) (shuffleHeadLength : Nat) (l : List String) :
    List String :=
  (shuffleIndices l.length shuffleHeadLength).foldl
    (fun acc i => swapIds acc i (draws i)) l

/-- ServerEntryIterator.Reset from dataStore_alt.go (repository-backed
variant): snapshot the candidate ids and shuffle past the head. -/
def ResetServerEntryIterator (st : DataStoreState) (shuffleHeadLength : Nat)
    (draws : Nat → Nat) : List String :=
  resetShuffle draws shuffleHeadLength (ResetCandidates st)

/-- The repository-backed iterator state after Reset (the pinned-target
variant bypasses the repository and is not needed by the claims). -/
structure ServerEntryIterator where
  region : String
  protocol : String
  shuffleHeadLength : Nat
  serverEntryIds : List String
  serverEntryIndex : Nat
deriving DecidableEq, Repr

/-- The loop body of ServerEntryIterator.Next over the remaining candidate
ids: fetch each id from the current bucket state, error when the record is
missing, skip entries failing the region/protocol filter, and return the
first match made compatible. Also returns how many ids were consumed. -/
def nextScan (st : DataStoreState) (region protocol : String) :
    List String → Except String (Option ServerEntry) × Nat
  | [] => (Except.ok none, 0)
  | id :: rest =>
    match lookupEntry st.serverEntries id with
    | none => (Except.error ("Unexpected missing server entry: " ++ id), 1)
    | some serverEntry =>
      if (region == "" || serverEntry.Region == region) &&
         (protocol == "" || serverEntrySupportsProtocol serverEntry protocol) then
        (Except.ok (some (MakeCompatibleServerEntry serverEntry)), 1)
      else
        let r := nextScan st region protocol rest
        (r.1, r.2 + 1)

/-- ServerEntryIterator.Next from dataStore_alt.go: scan from the cursor; on
error the deferred Close clears the iterator, otherwise the cursor advances
past the consumed ids. -/
def iteratorNext (st : DataStoreState) (it : ServerEntryIterator) :
    Except String (Option ServerEntry) × ServerEntryIterator :=
  let r := nextScan st it.region it.protocol (it.serverEntryIds.drop it.serverEntryIndex)
  match r.1 with
  | Except.error e =>
    (Except.error e, { it with serverEntryIds := [], serverEntryIndex := 0 })
  | Except.ok v =>
    (Except.ok v, { it with serverEntryIndex := it.serverEntryIndex + r.2 })

/-- The filter of CountServerEntries applied to the scanned entries. -/
def countFilter (region protocol : String) (entries : List ServerEntry) : Nat :=
  (entries.filter (fun serverEntry =>
    (region == "" || serverEntry.Region == region) &&
    (protocol == "" || serverEntrySupportsProtocol serverEntry protocol))).length

/-- CountServerEntries from dataStore_alt.go. The scanServerEntries pass over
the engine may fail (I/O or corrupt record), so its outcome is the scan
parameter. On failure the function emits an alert notice and returns 0; its
return type carries no error. Result is the count and the emitted notices. -/
def CountServerEntries (region protocol : String)
    (scan : Except String (List ServerEntry)) : Nat × List String :=
  match scan with
  | Except.error e => (0, ["CountServerEntries failed: " ++ e])
  | Except.ok entries => (countFilter region protocol entries, [])

/-! Concrete fixtures for the evaluated scenarios and witnesses. -/

/-- A server entry with the given IP address and zero values elsewhere. -/
def mkServerEntry (ip : String) : ServerEntry :=
  { IpAddress := ip, WebServerPort := "", WebServerSecret := "",
    WebServerCertificate := "", SshPort := 0, SshUsername := "",
    SshPassword := "", SshHostKey := "", SshObfuscatedPort := 0,
    SshObfuscatedKey := "", Capabilities := [], Region := "",
    MeekServerPort := 0, MeekCookieEncryptionPublicKey := "",
    MeekObfuscatedKey := "", MeekFrontingHost := "", MeekFrontingDomain := "",
    MeekFrontingAddresses := [], MeekFrontingAddressesRegex := "" }

/-- Ten distinct valid entries, stored sequentially. -/
def st10 : DataStoreState :=
  storeSequentially goParseIPv4
    ((List.range 10).map (fun n => mkServerEntry ("10.0.0." ++ Nat.repr n)))
    emptyDataStore

/-- 150 distinct valid entries (octet pattern n.0.0.1, n = 0..149). -/
def entries150 : List ServerEntry :=
  (List.range 150).map (fun n => mkServerEntry (Nat.repr n ++ ".0.0.1"))

/-- Entries A, B, C stored in that order, then Promote(B). -/
def stABC : DataStoreState :=
  (PromoteServerEntry "1.0.0.2"
    (storeSequentially goParseIPv4
      [mkServerEntry "1.0.0.1", mkServerEntry "1.0.0.2", mkServerEntry "1.0.0.3"]
      emptyDataStore)).1

/-- A fresh no-filter iterator over stABC, head length 1, with every
rand.Intn draw coming out 0 (each is in rand.Intn's range). -/
def itABC : ServerEntryIterator :=
  { region := "", protocol := "", shuffleHeadLength := 1,
    serverEntryIds := ResetServerEntryIterator stABC 1 (fun _ => 0),
    serverEntryIndex := 0 }

/-- A concrete JSON unmarshaller for witnesses: the payload bytes, read as an
ASCII string, give the entry's IP address. -/
def juIpFromPayload (bs : List Nat) : Option ServerEntry :=
  some (mkServerEntry (String.mk (bs.map Char.ofNat)))

/-- Three encoded lines: hex of "a b c d bad", "a b c d 1.2.3.4" and
"a b c d 5.6.7.8" — one invalid IP between two valid ones. -/
def encodedList3 : String :=
  "6120622063206420626164\n6120622063206420312e322e332e34\n6120622063206420352e362e372e38"

/-- An entry carrying the FRONTED-MEEK capability. -/
def meekEntry : ServerEntry :=
  { mkServerEntry "9.9.9.9" with Capabilities := ["FRONTED-MEEK"] }

/-- A store holding only meekEntry. -/
def stMeek : DataStoreState := ⟨[("9.9.9.9", meekEntry)], ["9.9.9.9"]⟩

/-- An iterator over stMeek filtering on protocol FRONTED-MEEK-OSSH. -/
def itMeek : ServerEntryIterator :=
  { region := "", protocol := "FRONTED-MEEK-OSSH", shuffleHeadLength := 1,
    serverEntryIds := ["9.9.9.9"], serverEntryIndex := 0 }

/-- Stored entry E1 for IP 1.2.3.4 and its modification carrying a region. -/
def e1Stored : ServerEntry := mkServerEntry "1.2.3.4"

/-- The modified record for the same IP. -/
def e1Modified : ServerEntry := { e1Stored with Region := "CA" }

/-- A store already holding e1Stored. -/
def stE1 : DataStoreState := ⟨[("1.2.3.4", e1Stored)], ["1.2.3.4"]⟩

/-- An entry whose MeekFrontingDomain is set but address list is empty. -/
def eDomainOnly : ServerEntry :=
  { mkServerEntry "1.2.3.4" with MeekFrontingDomain := "x.example.com" }

/-- An entry with a non-empty MeekFrontingAddresses list. -/
def eWithAddresses : ServerEntry :=
  { mkServerEntry "1.2.3.4" with MeekFrontingAddresses := ["a.example.com"] }

/-! Theorems. -/

/-- Helper: MakeCompatibleServerEntry never changes the capability set. -/
theorem makeCompatible_capabilities (e : ServerEntry) :
    (MakeCompatibleServerEntry e).Capabilities = e.Capabilities := by
  unfold MakeCompatibleServerEntry
  split <;> rfl

/-- Claim C1: false on the code. With 10 distinct stored entries and head
length 3, Reset's tail shuffle draws j from rand.Intn(i) = [0, i), which
includes head positions, so the first 3 ids are not left unmoved: with all
draws 0 the first 3 differ from the rank prefix, and two admissible draw
sequences give different first-3 lists across Resets; the final conjunct
records that every draw used is inside rand.Intn's range. -/
theorem reset_shuffle_disturbs_head :
    (ResetServerEntryIterator st10 3 (fun _ => 0)).take 3 ≠
      (ResetCandidates st10).take 3 ∧
    (ResetServerEntryIterator st10 3 (fun _ => 0)).take 3 ≠
      (ResetServerEntryIterator st10 3 (fun i => i - 1)).take 3 ∧
    ((shuffleIndices (ResetCandidates st10).length 3).all
      (fun i => decide (0 < i) && decide (i - 1 < i))) = true := by
  decide

/-- Claim C3: false on the code. Promote(B) does insert B at position 0 of
the rank index (first conjunct), but a fresh unfiltered iterator need not
yield B first: with head length 1 and admissible all-zero draws, the biased
shuffle moves A to the front and Next returns A, not B. -/
theorem promote_then_iterate_not_first :
    stABC.rankedServerEntries.get? 0 = some "1.0.0.2" ∧
    (iteratorNext stABC itABC).1 =
      Except.ok (some (mkServerEntry "1.0.0.1")) ∧
    mkServerEntry "1.0.0.1" ≠ mkServerEntry "1.0.0.2" := by
  refine ⟨by decide, ?_, by decide⟩
  rfl

set_option maxHeartbeats 4000000

/-- Claim C2: false on the code. Storing 150 distinct valid entries
sequentially (each inserting at position 1) leaves the persisted Rank Index
at length 101, exceeding the documented cap of 100: the shift branch
truncates at end = min(len, cap) instead of min(len, cap-1), so the inserted
id pushes the length to min(len, cap) + 1 = 101 once len has reached 100.
The last two conjuncts record that the 150 entries are distinct and valid. -/
theorem rank_index_cap_exceeded :
    (storeSequentially goParseIPv4 entries150 emptyDataStore).rankedServerEntries.length =
      rankedServerEntryCount + 1 ∧
    (entries150.map (fun e => e.IpAddress)).Nodup ∧
    entries150.all (fun e => goParseIPv4 e.IpAddress) = true := by
  refine ⟨by decide, by decide, by decide⟩

/-- Claim C9 counterexample: an engine read failure inside Count is not
returned to the caller. CountServerEntries recovers locally: it emits an
alert notice and returns count 0 — its return value carries no error. -/
theorem count_engine_error_returns_zero :
    CountServerEntries "" "" (Except.error "engine read failure") =
      (0, ["CountServerEntries failed: engine read failure"]) := rfl

/-- Claim C9 amended: an engine failure in Count is recovered locally, never
propagated: for every region/protocol filter and failure message, the call
returns count 0 and surfaces the failure only as an alert notice. -/
theorem count_engine_error_recovery (region protocol msg : String) :
    CountServerEntries region protocol (Except.error msg) =
      (0, ["CountServerEntries failed: " ++ msg]) := rfl

/-- Claim C10: storing an entry whose IpAddress does not parse as an IP
literal returns the invalid-entry error and leaves the data store unchanged
(validation runs before the write transaction is opened). -/
theorem store_invalid_ip_unchanged (parseIP : String → Bool) (e : ServerEntry)
    (replaceIfExists : Bool) (st : DataStoreState)
    (hv : parseIP e.IpAddress = false) :
    StoreServerEntry parseIP e replaceIfExists st =
      (st, some "invalid server entry") := by
  simp [StoreServerEntry, ValidateServerEntry, hv]

/-- Claim C10 witness: "bad" is not an IP literal, and storing an entry with
that address errors and leaves a concrete store unchanged. -/
theorem store_invalid_ip_unchanged_witness :
    StoreServerEntry goParseIPv4 (mkServerEntry "bad") true stE1 =
      (stE1, some "invalid server entry") :=
  store_invalid_ip_unchanged goParseIPv4 (mkServerEntry "bad") true stE1 (by decide)

/-- Claim C5: MakeCompatibleServerEntry normalizes an entry with no fronting
addresses and a non-empty fronting domain to the one-element address list,
and returns any entry with a non-empty address list unchanged. -/
theorem make_compatible_normalization (e : ServerEntry) :
    (e.MeekFrontingAddresses = [] → e.MeekFrontingDomain ≠ "" →
      (MakeCompatibleServerEntry e).MeekFrontingAddresses =
        [e.MeekFrontingDomain]) ∧
    (e.MeekFrontingAddresses ≠ [] → MakeCompatibleServerEntry e = e) := by
  constructor
  · intro h1 h2
    simp [MakeCompatibleServerEntry, h1, h2]
  · intro h1
    have h2 : e.MeekFrontingAddresses.length ≠ 0 := by
      simpa [List.length_eq_zero] using h1
    simp [MakeCompatibleServerEntry, h2]

/-- Claim C5 witness: the domain-only entry is normalized to the one-element
list and the entry with addresses is unchanged. -/
theorem make_compatible_normalization_witness :
    (MakeCompatibleServerEntry eDomainOnly).MeekFrontingAddresses =
      ["x.example.com"] ∧
    MakeCompatibleServerEntry eWithAddresses = eWithAddresses :=
  ⟨(make_compatible_normalization eDomainOnly).1 (by decide) (by decide),
   (make_compatible_normalization eWithAddresses).2 (by decide)⟩

/-- Helper: a bucket Put followed by a Get of the same key yields the value
just written. -/
theorem lookupEntry_putEntry (m : List (String × ServerEntry)) (k : String)
    (v : ServerEntry) : lookupEntry (putEntry m k v) k = some v := by
  induction m with
  | nil => simp [putEntry, lookupEntry]
  | cons hd tl ih =>
    obtain ⟨k', v'⟩ := hd
    by_cases hk : k = k'
    · simp [putEntry, hk, lookupEntry]
    · by_cases hlt : charListLt k.data k'.data = true
      · simp [putEntry, hk, hlt, lookupEntry]
      · simp [putEntry, hk, hlt, lookupEntry, ih]

/-- Claim C4: for a stored entry E1 and a modified entry with the same IP,
Store with replaceIfExists = false returns no error and is a complete no-op
(the returned state is the input state, so the stored record is still E1 and
the Rank Index is untouched), while Store with replaceIfExists = true
returns no error and leaves the stored record for that IP equal to the
modified entry. -/
theorem store_replace_semantics (parseIP : String → Bool) (st : DataStoreState)
    (e1 e1' : ServerEntry) (hip : e1'.IpAddress = e1.IpAddress)
    (hv : parseIP e1'.IpAddress = true)
    (hl : lookupEntry st.serverEntries e1.IpAddress = some e1) :
    StoreServerEntry parseIP e1' false st = (st, none) ∧
    lookupEntry (StoreServerEntry parseIP e1' true st).1.serverEntries
      e1.IpAddress = some e1' ∧
    (StoreServerEntry parseIP e1' true st).2 = none := by
  have hv' : parseIP e1.IpAddress = true := hip ▸ hv
  refine ⟨?_, ?_, ?_⟩ <;>
    simp [StoreServerEntry, ValidateServerEntry, hip, hv', hl,
      lookupEntry_putEntry]

/-- Claim C4 witness: with E1 stored for 1.2.3.4, storing the modified entry
with replaceIfExists = false leaves the store unchanged with no error, and
with replaceIfExists = true the record equals the modified entry. -/
theorem store_replace_semantics_witness :
    StoreServerEntry goParseIPv4 e1Modified false stE1 = (stE1, none) ∧
    lookupEntry (StoreServerEntry goParseIPv4 e1Modified true stE1).1.serverEntries
      e1Stored.IpAddress = some e1Modified ∧
    (StoreServerEntry goParseIPv4 e1Modified true stE1).2 = none :=
  store_replace_semantics goParseIPv4 stE1 e1Stored e1Modified
    (by decide) (by decide) (by decide)

/-- Helper: every entry the Next scan produces under a non-empty protocol
filter passed the capability check for that protocol. -/
theorem nextScan_protocol_sound (st : DataStoreState) (region protocol : String)
    (hp : protocol ≠ "") :
    ∀ (ids : List String) (e : ServerEntry),
      (nextScan st region protocol ids).1 = Except.ok (some e) →
      Contains e.Capabilities (trimSuffix protocol "-OSSH") = true := by
  intro ids
  induction ids with
  | nil => intro e h; simp [nextScan] at h
  | cons id rest ih =>
    intro e h
    rw [nextScan] at h
    split at h
    · simp at h
    · rename_i se hl
      split at h
      · rename_i hc
        simp only [Except.ok.injEq, Option.some.injEq] at h
        have hsup : serverEntrySupportsProtocol se protocol = true := by
          have h2 := (Bool.and_eq_true_iff.mp hc).2
          rcases Bool.or_eq_true_iff.mp h2 with h3 | h3
          · exact absurd (by simpa using h3) hp
          · exact h3
        rw [← h, makeCompatible_capabilities]
        exact hsup
      · exact ih e (by simpa using h)

/-- Claim C8: an iterator with a non-empty protocol filter only yields
entries whose capability set contains the protocol name with its -OSSH
suffix stripped; this holds for Next at every cursor position, hence for
every entry of any sequence of Next calls. -/
theorem iterator_protocol_filter_sound (st : DataStoreState)
    (it : ServerEntryIterator) (e : ServerEntry) (hp : it.protocol ≠ "")
    (h : (iteratorNext st it).1 = Except.ok (some e)) :
    Contains e.Capabilities (trimSuffix it.protocol "-OSSH") = true := by
  rw [iteratorNext] at h
  split at h
  · exact absurd h (by simp)
  · rename_i v heq
    simp only [Except.ok.injEq] at h
    exact nextScan_protocol_sound st it.region it.protocol hp
      (it.serverEntryIds.drop it.serverEntryIndex) e (by rw [heq, h])

/-- Claim C8 witness: the FRONTED-MEEK-OSSH iterator over the concrete store
yields an entry, and that entry carries the FRONTED-MEEK capability. -/
theorem iterator_protocol_filter_sound_witness :
    Contains (MakeCompatibleServerEntry meekEntry).Capabilities
      (trimSuffix "FRONTED-MEEK-OSSH" "-OSSH") = true :=
  iterator_protocol_filter_sound stMeek itMeek
    (MakeCompatibleServerEntry meekEntry) (by decide) (by rfl)

/-- Helper: bytes.SplitN produces at most n parts. -/
theorem goSplitN_length_le (sep : Nat) :
    ∀ (n : Nat) (s : List Nat), (goSplitN s sep n).length ≤ n := by
  intro n
  induction n with
  | zero => intro s; simp [goSplitN]
  | succ m ih =>
    intro s
    cases m with
    | zero => simp [goSplitN]
    | succ k =>
      cases hsf : splitFirst s sep with
      | none => simp [goSplitN, hsf]
      | some ab =>
        obtain ⟨a, b⟩ := ab
        have hb := ih b
        simp [goSplitN, hsf]
        omega

/-- Claim C6: DecodeServerEntry fails exactly when hex-decoding fails, or the
decoded payload splits on spaces into fewer than five fields, or JSON
unmarshalling of the fifth field fails; on success the result is exactly the
unmarshalling of the fifth field (the first four are discarded). -/
theorem decode_server_entry_error_conditions
    (ju : List Nat → Option ServerEntry) (enc : String) :
    (DecodeServerEntry ju enc = none ↔
      hexDecodeString enc = none ∨
      ∃ payload, hexDecodeString enc = some payload ∧
        ((goSplitN payload 32 5).length < 5 ∨
         ((goSplitN payload 32 5).length = 5 ∧
          ju ((goSplitN payload 32 5).getD 4 []) = none))) ∧
    (∀ e, DecodeServerEntry ju enc = some e ↔
      ∃ payload, hexDecodeString enc = some payload ∧
        (goSplitN payload 32 5).length = 5 ∧
        ju ((goSplitN payload 32 5).getD 4 []) = some e) := by
  unfold DecodeServerEntry
  cases hx : hexDecodeString enc with
  | none => simp
  | some payload =>
    have hle : (goSplitN payload 32 5).length ≤ 5 := goSplitN_length_le 32 5 payload
    by_cases hlen : (goSplitN payload 32 5).length = 5
    · simp [hlen]
    · have hlt : (goSplitN payload 32 5).length < 5 := by omega
      simp [hlen, hlt]

/-- Helper: when every non-empty line decodes, the batch loop returns
exactly the decoded entries that validate, in order. -/
theorem decodeLoop_all_ok (ju : List Nat → Option ServerEntry)
    (parseIP : String → Bool) :
    ∀ (ls : List String),
      (∀ l ∈ ls.filter (fun l => !l.data.isEmpty),
        DecodeServerEntry ju l ≠ none) →
      decodeAndValidateLoop ju parseIP ls =
        some (((ls.filter (fun l => !l.data.isEmpty)).filterMap
            (DecodeServerEntry ju)).filter
          (fun e => (ValidateServerEntry parseIP e).isNone)) := by
  intro ls
  induction ls with
  | nil => intro _; simp [decodeAndValidateLoop]
  | cons l rest ih =>
    intro hall
    by_cases he : l.data.isEmpty = true
    · have h1 : decodeAndValidateLoop ju parseIP (l :: rest) =
          decodeAndValidateLoop ju parseIP rest := by
        rw [decodeAndValidateLoop, if_pos he]
      rw [h1, List.filter_cons]
      simp only [he]
      exact ih (by simpa [List.filter_cons, he] using hall)
    · have hmem : l ∈ (l :: rest).filter (fun l => !l.data.isEmpty) := by
        simp [List.filter_cons, he]
      obtain ⟨e, hd⟩ := Option.ne_none_iff_exists'.mp (hall l hmem)
      have hrest : ∀ l' ∈ rest.filter (fun l => !l.data.isEmpty),
          DecodeServerEntry ju l' ≠ none := by
        intro l' hl'
        exact hall l' (by simp [List.filter_cons, he]; right; simpa using hl')
      rw [decodeAndValidateLoop, if_neg (by simpa using he), hd, ih hrest]
      simp [List.filter_cons, he, List.filterMap_cons, hd]

/-- Helper: a non-empty line that fails to decode makes the whole batch
call fail. -/
theorem decodeLoop_err (ju : List Nat → Option ServerEntry)
    (parseIP : String → Bool) :
    ∀ (ls : List String),
      (∃ l ∈ ls.filter (fun l => !l.data.isEmpty),
        DecodeServerEntry ju l = none) →
      decodeAndValidateLoop ju parseIP ls = none := by
  intro ls
  induction ls with
  | nil => intro h; simp at h
  | cons l rest ih =>
    intro h
    by_cases he : l.data.isEmpty = true
    · rw [decodeAndValidateLoop, if_pos he]
      apply ih
      simpa [List.filter_cons, he] using h
    · rw [decodeAndValidateLoop, if_neg (by simpa using he)]
      cases hd : DecodeServerEntry ju l with
      | none => rfl
      | some e =>
        have hex : ∃ l' ∈ rest.filter (fun l => !l.data.isEmpty),
            DecodeServerEntry ju l' = none := by
          rcases h with ⟨l', hl', hnone⟩
          rw [List.filter_cons] at hl'
          simp only [he, Bool.not_false, if_pos] at hl'
          rcases List.mem_cons.mp hl' with rfl | hl''
          · exact absurd hnone (by simp [hd])
          · exact ⟨l', hl'', hnone⟩
        rw [ih hex]

/-- Claim C7: DecodeAndValidateList skips empty lines; when every non-empty
line decodes it returns exactly the decoded entries passing IP validation in
their original relative order, and when some non-empty line fails to decode
the whole call fails, returning nothing. -/
theorem decode_and_validate_list_spec (ju : List Nat → Option ServerEntry)
    (parseIP : String → Bool) (s : String) :
    ((∀ l ∈ (goSplitLines s).filter (fun l => !l.data.isEmpty),
        DecodeServerEntry ju l ≠ none) →
      DecodeAndValidateServerEntryList ju parseIP s =
        some ((((goSplitLines s).filter (fun l => !l.data.isEmpty)).filterMap
            (DecodeServerEntry ju)).filter
          (fun e => (ValidateServerEntry parseIP e).isNone))) ∧
    ((∃ l ∈ (goSplitLines s).filter (fun l => !l.data.isEmpty),
        DecodeServerEntry ju l = none) →
      DecodeAndValidateServerEntryList ju parseIP s = none) := by
  exact ⟨fun h => decodeLoop_all_ok ju parseIP (goSplitLines s) h,
         fun h => decodeLoop_err ju parseIP (goSplitLines s) h⟩

/-- Claim C7 witness: one line with an invalid IP between two lines with
valid IPs yields exactly the two valid entries, in order. -/
theorem decode_and_validate_list_spec_witness :
    DecodeAndValidateServerEntryList juIpFromPayload goParseIPv4 encodedList3 =
      some [mkServerEntry "1.2.3.4", mkServerEntry "5.6.7.8"] := by
  have h :=
    (decode_and_validate_list_spec juIpFromPayload goParseIPv4 encodedList3).1
      (by decide)
  rw [h]
  rfl

end PsiphonModel
